import Mathlib

/-!
Verification of the standings / readiness / bracket-seeding core of the
SOGSCup tournament dashboard (source file `Klasemen.py`).

The store (`teams` and `matches` tables) is modelled as explicit lists.
Python dictionaries keyed by team name are modelled as association lists;
a `KeyError` (raised when a match references an unknown team) is modelled
by returning `none`, and every fallible computation is `Option`-valued.
-/

/-- Row of the `teams` table: `INSERT INTO teams (grup, nama_tim)`. -/
structure TeamRec where
  grup : String
  nama_tim : String
deriving DecidableEq, Repr

/-- Row of the `matches` table: `{grup, team1, team2, score1, score2, status}`.
Scores are nullable integers (non-negative in the UI, hence `Nat`), the
status is a nullable string (`'Selesai'` marks a completed match). -/
structure MatchRec where
  grup : String
  team1 : String
  team2 : String
  score1 : Option Nat
  score2 : Option Nat
  status : Option String
deriving DecidableEq, Repr

/-- The relational store the core reads from. -/
structure Store where
  teams : List TeamRec
  mtable : List MatchRec
deriving DecidableEq, Repr

/-- Per-team accumulator, mirroring the Python dict
`{"Main": 0, "Menang": 0, "Kalah": 0, "PF": 0, "PA": 0}`. -/
structure Stats where
  Main : Nat
  Menang : Nat
  Kalah : Nat
  PF : Nat
  PA : Nat
deriving DecidableEq, Repr

/-- A row of the standings table built at the end of `calculate_klasemen`:
the team name, the accumulated stats, and the derived columns
`Selisih = PF - PA` and `Poin = Menang * 3`. -/
structure Row where
  Tim : String
  Main : Nat
  Menang : Nat
  Kalah : Nat
  PF : Nat
  PA : Nat
  Selisih : Int
  Poin : Nat
deriving DecidableEq, Repr

/-- `SELECT nama_tim FROM teams WHERE grup = %s` (`get_grup_teams`). -/
def get_grup_teams (s : Store) (g : String) : List String :=
  (s.teams.filter (fun t => t.grup == g)).map TeamRec.nama_tim

/-- Duplicate removal keeping the first occurrence of each name, the key
order produced by a Python dict comprehension over a list. -/
def eraseDupsKeepFirst : List String → List String
  | [] => []
  | t :: ts => t :: (eraseDupsKeepFirst ts).filter (fun u => u != t)

/-- Lexicographic comparison of character lists by code point, the SQL
collation order on the plain ASCII group labels. -/
def charListLe : List Char → List Char → Bool
  | [], _ => true
  | _ :: _, [] => false
  | c :: cs, d :: ds =>
    if c.toNat < d.toNat then true
    else if d.toNat < c.toNat then false
    else charListLe cs ds

/-- String comparison used for `ORDER BY grup`. -/
def strLe (a b : String) : Bool :=
  charListLe a.data b.data

/-- `SELECT DISTINCT grup FROM teams WHERE grup IS NOT NULL ORDER BY grup`
(`get_all_grups`): the distinct group labels in ascending order. -/
def get_all_grups (s : Store) : List String :=
  List.insertionSort (fun a b => strLe a b = true)
    (eraseDupsKeepFirst (s.teams.map TeamRec.grup))

/-- The zero-initialised accumulator of a freshly registered team. -/
def zeroStats : Stats := ⟨0, 0, 0, 0, 0⟩

/-- `stats = {team: {...zeros...} for team in teams}`. -/
def initStats (teams : List String) : List (String × Stats) :=
  (eraseDupsKeepFirst teams).map (fun t => (t, zeroStats))

/-- Association-list lookup, i.e. reading `stats[t]`. -/
def lookupStats : List (String × Stats) → String → Option Stats
  | [], _ => none
  | p :: l, t => if p.1 == t then some p.2 else lookupStats l t

/-- Whether `t` is a key of the dict. -/
def hasKey (l : List (String × Stats)) (t : String) : Bool :=
  l.any (fun p => p.1 == t)

/-- Mutation `stats[t] = f stats[t]`; a missing key is Python's `KeyError`,
modelled by `none`. -/
def updateStats (l : List (String × Stats)) (t : String) (f : Stats → Stats) :
    Option (List (String × Stats)) :=
  if hasKey l t then some (l.map (fun p => if p.1 == t then (p.1, f p.2) else p)) else none

/-- One iteration of the match loop in `calculate_klasemen` (lines 114-134):
null scores are skipped before any team lookup; otherwise games played,
points for / against, and the win/loss tally are updated in source order. -/
def applyMatch (stats : List (String × Stats)) (m : MatchRec) :
    Option (List (String × Stats)) :=
  match m.score1, m.score2 with
  | some s1, some s2 =>
    (updateStats stats m.team1 (fun v => { v with Main := v.Main + 1 })).bind fun st1 =>
    (updateStats st1 m.team2 (fun v => { v with Main := v.Main + 1 })).bind fun st2 =>
    (updateStats st2 m.team1 (fun v => { v with PF := v.PF + s1 })).bind fun st3 =>
    (updateStats st3 m.team1 (fun v => { v with PA := v.PA + s2 })).bind fun st4 =>
    (updateStats st4 m.team2 (fun v => { v with PF := v.PF + s2 })).bind fun st5 =>
    (updateStats st5 m.team2 (fun v => { v with PA := v.PA + s1 })).bind fun st6 =>
    if s2 < s1 then
      (updateStats st6 m.team1 (fun v => { v with Menang := v.Menang + 1 })).bind fun st7 =>
      updateStats st7 m.team2 (fun v => { v with Kalah := v.Kalah + 1 })
    else if s1 < s2 then
      (updateStats st6 m.team2 (fun v => { v with Menang := v.Menang + 1 })).bind fun st7 =>
      updateStats st7 m.team1 (fun v => { v with Kalah := v.Kalah + 1 })
    else some st6
  | _, _ => some stats

/-- `SELECT ... FROM matches WHERE grup = %s AND status = 'Selesai'`. -/
def completedMatches (s : Store) (g : String) : List MatchRec :=
  s.mtable.filter (fun m => m.grup == g && m.status == some "Selesai")

/-- The whole match loop; an exception (`none`) aborts the computation. -/
def foldMatches (ms : List MatchRec) (init : List (String × Stats)) :
    Option (List (String × Stats)) :=
  ms.foldl (fun acc m => acc.bind (fun st => applyMatch st m)) (some init)

/-- Building one entry of `tabel` from a `stats` item. -/
def mkRow (t : String) (v : Stats) : Row :=
  { Tim := t, Main := v.Main, Menang := v.Menang, Kalah := v.Kalah, PF := v.PF, PA := v.PA,
    Selisih := (v.PF : Int) - (v.PA : Int), Poin := v.Menang * 3 }

/-- Row `a` may be placed before row `b` by
`sort_values(by=["Poin", "Selisih"], ascending=[False, False])`:
strictly more points, or equal points and at least the differential.
A multi-column pandas sort is stable, which `List.insertionSort` matches. -/
def rowBefore (a b : Row) : Prop :=
  b.Poin < a.Poin ∨ (a.Poin = b.Poin ∧ b.Selisih ≤ a.Selisih)

instance : DecidableRel rowBefore := fun a b => by
  unfold rowBefore
  exact inferInstance

instance : IsTotal Row rowBefore :=
  ⟨fun a b => by unfold rowBefore; omega⟩

instance : IsTrans Row rowBefore :=
  ⟨fun a b c h1 h2 => by unfold rowBefore at h1 h2 ⊢; omega⟩

/-- `calculate_klasemen` (lines 97-148): an empty roster yields an empty
table before any match is read; otherwise the completed matches are
aggregated (a `KeyError` yields `none`) and the rows are sorted by
points then differential, both descending. -/
def calculate_klasemen (s : Store) (g : String) : Option (List Row) :=
  let teams := get_grup_teams s g
  if teams.isEmpty then some [] else
    (foldMatches (completedMatches s g) (initStats teams)).map
      (fun stats => List.insertionSort rowBefore (stats.map (fun p => mkRow p.1 p.2)))

/-- The readiness gate `len(df) >= 4 and df["Main"].min() >= 3` (lines 203
and 345-350); `min` of an empty column compares false. -/
def isReady (rows : List Row) : Bool :=
  decide (4 ≤ rows.length) &&
    (match (rows.map Row.Main).min? with
     | some m => decide (3 ≤ m)
     | none => false)

/-- The Python `list.index` of an element (first position of `p`); only
ever evaluated at elements of the list, so the out-of-list value is moot. -/
def idxOf (p : String × String) : List (String × String) → Nat
  | [] => 0
  | q :: t => if p = q then 0 else idxOf p t + 1

/-- `{grup: team for grup, team in all_finalists if all_finalists.index((grup, team)) % 2 == 0}`
(line 396/411), as the association list the dict comprehension ranges over. -/
def juara_grup (fin : List (String × String)) : List (String × String) :=
  fin.filter (fun p => idxOf p fin % 2 == 0)

/-- Same with `% 2 == 1` (line 397/412): the runner-up entries. -/
def runner_up (fin : List (String × String)) : List (String × String) :=
  fin.filter (fun p => idxOf p fin % 2 == 1)

/-- Python dict lookup built from an entry list: later entries overwrite
earlier ones, hence the lookup on the reversed list; a missing key is a
`KeyError` (`none`). -/
def dictGet (d : List (String × String)) (g : String) : Option String :=
  (d.reverse.find? (fun p => p.1 == g)).map Prod.snd

/-- Lines 388-392: `(grup, df.iloc[0]["Tim"])` and `(grup, df.iloc[1]["Tim"])`
appended for every group, in `get_all_grups` order; an `IndexError`
(fewer than two rows) or a `KeyError` inside `calculate_klasemen` is `none`. -/
def all_finalists (s : Store) : Option (List (String × String)) :=
  (get_all_grups s).foldl
    (fun acc g => acc.bind fun fins =>
      (calculate_klasemen s g).bind fun rows =>
      (rows.get? 0).bind fun r0 =>
      (rows.get? 1).bind fun r1 =>
      some (fins ++ [(g, r0.Tim), (g, r1.Tim)]))
    (some [])

/-- The default draw stored into `st.session_state["final_draw"]`
(lines 394-404): `[juara_grup["A"], runner_up["B"], juara_grup["C"],
runner_up["D"], juara_grup["B"], runner_up["A"], juara_grup["D"],
runner_up["C"]]`. -/
def final_draw (s : Store) : Option (List String) :=
  (all_finalists s).bind fun fin =>
    (dictGet (juara_grup fin) "A").bind fun a =>
    (dictGet (runner_up fin) "B").bind fun b =>
    (dictGet (juara_grup fin) "C").bind fun c =>
    (dictGet (runner_up fin) "D").bind fun d =>
    (dictGet (juara_grup fin) "B").bind fun e =>
    (dictGet (runner_up fin) "A").bind fun f =>
    (dictGet (juara_grup fin) "D").bind fun g =>
    (dictGet (runner_up fin) "C").bind fun h =>
    some [a, b, c, d, e, f, g, h]

/-- The draw rebuilt after `random.shuffle(groups)` (lines 406-419), for a
given permuted label list `gs`; the source always shuffles the 4-element
list `["A", "B", "C", "D"]`, so other shapes never occur (modelled `none`). -/
def shuffled_final_draw (s : Store) (gs : List String) : Option (List String) :=
  match gs with
  | [g0, g1, g2, g3] =>
    (all_finalists s).bind fun fin =>
      (dictGet (juara_grup fin) g0).bind fun a =>
      (dictGet (runner_up fin) g1).bind fun b =>
      (dictGet (juara_grup fin) g2).bind fun c =>
      (dictGet (runner_up fin) g3).bind fun d =>
      (dictGet (juara_grup fin) g1).bind fun e =>
      (dictGet (runner_up fin) g0).bind fun f =>
      (dictGet (juara_grup fin) g3).bind fun g =>
      (dictGet (runner_up fin) g2).bind fun h =>
      some [a, b, c, d, e, f, g, h]
  | _ => none

/-- The readiness loop of `show_final_bracket` (lines 339-354): the flag
starts true, every group is visited (no early exit), and a `KeyError`
inside `calculate_klasemen` aborts the page (`none`). -/
def allGroupsReady (s : Store) : Option Bool :=
  (get_all_grups s).foldl
    (fun acc g => acc.bind fun b => (calculate_klasemen s g).map fun rows => b && isReady rows)
    (some true)

/-- Observable result of one visit to the final-bracket page with no draw
cached yet: an uncaught exception, an explicit refusal (warning shown and
`return` before any draw is built), or a generated draw. -/
inductive BracketOutcome where
  | crash
  | refused
  | drawMade (draw : List String)
deriving DecidableEq, Repr

/-- `show_final_bracket` (lines 335-424) up to the point where a draw
exists: refuse when some group is not ready, otherwise build the default
draw. -/
def show_final_bracket_outcome (s : Store) : BracketOutcome :=
  match allGroupsReady s with
  | none => .crash
  | some false => .refused
  | some true =>
    match final_draw s with
    | none => .crash
    | some d => .drawMade d

/-- The team the draw code uses as winner of group `g`: the entry of the
`juara_grup` dict at key `g`. -/
def juaraOf (s : Store) (g : String) : Option String :=
  (all_finalists s).bind fun fin => dictGet (juara_grup fin) g

/-- The team the draw code uses as runner-up of group `g`. -/
def runnerUpOf (s : Store) (g : String) : Option String :=
  (all_finalists s).bind fun fin => dictGet (runner_up fin) g

/-- The rank-1 team of a group's standings (`df.iloc[0]["Tim"]`). -/
def groupWinner (s : Store) (g : String) : Option String :=
  (calculate_klasemen s g).bind fun rows => (rows.get? 0).map Row.Tim

/-- The rank-2 team of a group's standings (`df.iloc[1]["Tim"]`). -/
def groupRunnerUp (s : Store) (g : String) : Option String :=
  (calculate_klasemen s g).bind fun rows => (rows.get? 1).map Row.Tim

/-- The per-group readiness check as evaluated inside the loop: the gate
applied to the group's standings, false when the standings crash
(that case actually crashes the page, recorded separately). -/
def groupReady (s : Store) (g : String) : Bool :=
  ((calculate_klasemen s g).map isReady).getD false

/-- Store invariant assumed by the spec for one group: every completed
match with non-null scores references teams registered in that group. -/
def validMatches (s : Store) (g : String) : Prop :=
  ∀ m ∈ completedMatches s g, m.score1.isSome = true → m.score2.isSome = true →
    m.team1 ∈ get_grup_teams s g ∧ m.team2 ∈ get_grup_teams s g

instance (s : Store) (g : String) : Decidable (validMatches s g) := by
  unfold validMatches
  infer_instance

/-- A completed match with score `s1 : s2`. -/
def doneMatch (g t1 t2 : String) (s1 s2 : Nat) : MatchRec :=
  ⟨g, t1, t2, some s1, some s2, some "Selesai"⟩

/-- Six completed matches making a 4-team group ready: the first pair and
the second pair each meet three times, so every team has played 3 games. -/
def readyGroupMatches (g t1 t2 t3 t4 : String) : List MatchRec :=
  [doneMatch g t1 t2 1 0, doneMatch g t1 t2 1 0, doneMatch g t1 t2 1 0,
   doneMatch g t3 t4 1 0, doneMatch g t3 t4 1 0, doneMatch g t3 t4 1 0]

/-- A store with exactly 4 groups `A`-`D`, 4 teams each, every group ready. -/
def store4 : Store :=
  ⟨[⟨"A", "a"⟩, ⟨"A", "b"⟩, ⟨"A", "c"⟩, ⟨"A", "d"⟩,
    ⟨"B", "e"⟩, ⟨"B", "f"⟩, ⟨"B", "g"⟩, ⟨"B", "h"⟩,
    ⟨"C", "i"⟩, ⟨"C", "j"⟩, ⟨"C", "k"⟩, ⟨"C", "l"⟩,
    ⟨"D", "m"⟩, ⟨"D", "n"⟩, ⟨"D", "o"⟩, ⟨"D", "p"⟩],
   readyGroupMatches "A" "a" "b" "c" "d" ++ readyGroupMatches "B" "e" "f" "g" "h" ++
     readyGroupMatches "C" "i" "j" "k" "l" ++ readyGroupMatches "D" "m" "n" "o" "p"⟩

/-- The same store with a fifth ready group `E`. -/
def store5 : Store :=
  ⟨store4.teams ++ [⟨"E", "q"⟩, ⟨"E", "r"⟩, ⟨"E", "s"⟩, ⟨"E", "t"⟩],
   store4.mtable ++ readyGroupMatches "E" "q" "r" "s" "t"⟩

/-- Four groups of two teams and no matches (enough for a draw to be
generated structurally, though no group is ready). -/
def store2x4 : Store :=
  ⟨[⟨"A", "a1"⟩, ⟨"A", "a2"⟩, ⟨"B", "b1"⟩, ⟨"B", "b2"⟩, ⟨"C", "c1"⟩, ⟨"C", "c2"⟩,
    ⟨"D", "d1"⟩, ⟨"D", "d2"⟩], []⟩

/-- Group `A` holds `Z`, `X`, `Y` in that registration order; the only
completed match is the draw `X 5 : 5 Y`, so `Z` has zero games while `X`
and `Y` have one game, zero points, zero differential. -/
def storeDraw : Store :=
  ⟨[⟨"A", "Z"⟩, ⟨"A", "X"⟩, ⟨"A", "Y"⟩], [doneMatch "A" "X" "Y" 5 5]⟩

/-- A completed match with non-null scores whose `team1 = "u"` is not
registered in group `A`. -/
def storeBadTeam : Store :=
  ⟨[⟨"A", "x"⟩], [doneMatch "A" "u" "x" 5 3]⟩

/-- A completed match with null scores referencing the unregistered teams
`u` and `v`. -/
def storeNullBad : Store :=
  ⟨[⟨"A", "x"⟩, ⟨"A", "y"⟩], [⟨"A", "u", "v", none, none, some "Selesai"⟩]⟩

/-- A one-team store whose only group is not ready. -/
def storeTiny : Store :=
  ⟨[⟨"A", "x"⟩], []⟩

/-! ### Association-list (Python dict) lemmas -/

theorem hasKey_iff {l : List (String × Stats)} {t : String} :
    hasKey l t = true ↔ t ∈ l.map Prod.fst := by
  simp only [hasKey, List.any_eq_true, List.mem_map, beq_iff_eq]

theorem updateStats_eq_some {l : List (String × Stats)} {t : String} {f : Stats → Stats}
    (h : t ∈ l.map Prod.fst) :
    updateStats l t f = some (l.map (fun p => if p.1 == t then (p.1, f p.2) else p)) := by
  simp [updateStats, hasKey_iff.mpr h]

theorem updateStats_eq_none {l : List (String × Stats)} {t : String} {f : Stats → Stats}
    (h : t ∉ l.map Prod.fst) : updateStats l t f = none := by
  unfold updateStats
  rw [if_neg]
  intro hk
  exact h (hasKey_iff.mp hk)

theorem updateStats_keys {l l' : List (String × Stats)} {t : String} {f : Stats → Stats}
    (h : updateStats l t f = some l') : l'.map Prod.fst = l.map Prod.fst := by
  unfold updateStats at h
  split at h
  · cases h
    rw [List.map_map]
    refine List.map_congr_left (fun p _ => ?_)
    simp only [Function.comp_apply]
    split <;> rfl
  · cases h

theorem updateStats_mem_some {l : List (String × Stats)} {t : String} (f : Stats → Stats)
    (h : t ∈ l.map Prod.fst) :
    ∃ l', updateStats l t f = some l' ∧ l'.map Prod.fst = l.map Prod.fst :=
  ⟨_, updateStats_eq_some h, updateStats_keys (updateStats_eq_some h)⟩

theorem lookupStats_mapUpd (l : List (String × Stats)) (t : String) (f : Stats → Stats)
    (u : String) :
    lookupStats (l.map (fun p => if p.1 == t then (p.1, f p.2) else p)) u =
      if u = t then (lookupStats l u).map f else lookupStats l u := by
  induction l with
  | nil =>
    simp only [List.map_nil, lookupStats]
    split <;> rfl
  | cons p l ih =>
    simp only [List.map_cons, lookupStats, beq_iff_eq]
    by_cases hpt : p.1 = t
    · rw [if_pos hpt]
      by_cases hpu : p.1 = u
      · have hut : u = t := by rw [← hpu, hpt]
        simp only [lookupStats, beq_iff_eq, hpu, if_pos rfl, if_pos hut]
        rfl
      · have hut : ¬ u = t := fun h => hpu (by rw [hpt, h])
        simp only [lookupStats, beq_iff_eq, if_neg hpu, if_neg hut] at ih ⊢
        rw [ih]
    · rw [if_neg hpt]
      by_cases hpu : p.1 = u
      · have hut : ¬ u = t := fun h => hpt (by rw [hpu, h])
        simp only [lookupStats, beq_iff_eq, if_pos hpu, if_neg hut]
      · simp only [lookupStats, beq_iff_eq, if_neg hpu] at ih ⊢
        rw [ih]

theorem lookupStats_updateStats {l l' : List (String × Stats)} {t : String} {f : Stats → Stats}
    (h : updateStats l t f = some l') (u : String) :
    lookupStats l' u = if u = t then (lookupStats l u).map f else lookupStats l u := by
  unfold updateStats at h
  split at h
  · cases h
    exact lookupStats_mapUpd l t f u
  · cases h

theorem lookupStats_mem {t : String} {v : Stats} : ∀ {l : List (String × Stats)},
    lookupStats l t = some v → (t, v) ∈ l := by
  intro l
  induction l with
  | nil => intro h; cases h
  | cons p l ih =>
    rcases p with ⟨a, b⟩
    intro h
    simp only [lookupStats, beq_iff_eq] at h
    by_cases hpt : a = t
    · rw [if_pos hpt] at h
      cases h
      subst hpt
      exact List.mem_cons_self _ _
    · rw [if_neg hpt] at h
      exact List.mem_cons_of_mem _ (ih h)

/-! ### Duplicate-removal lemmas -/

theorem mem_eraseDupsKeepFirst {u : String} : ∀ {l : List String},
    u ∈ eraseDupsKeepFirst l ↔ u ∈ l := by
  intro l
  induction l with
  | nil => simp [eraseDupsKeepFirst]
  | cons t ts ih =>
    simp only [eraseDupsKeepFirst, List.mem_cons, List.mem_filter, bne_iff_ne, ne_eq, ih]
    constructor
    · rintro (rfl | ⟨hu, _⟩)
      · exact Or.inl rfl
      · exact Or.inr hu
    · rintro (rfl | hu)
      · exact Or.inl rfl
      · by_cases hut : u = t
        · exact Or.inl hut
        · exact Or.inr ⟨hu, hut⟩

theorem nodup_eraseDupsKeepFirst : ∀ (l : List String), (eraseDupsKeepFirst l).Nodup := by
  intro l
  induction l with
  | nil => simp [eraseDupsKeepFirst]
  | cons t ts ih =>
    simp only [eraseDupsKeepFirst, List.nodup_cons]
    constructor
    · intro hmem
      have := (List.mem_filter.mp hmem).2
      simp at this
    · exact ih.filter _

theorem eraseDupsKeepFirst_of_nodup : ∀ {l : List String}, l.Nodup → eraseDupsKeepFirst l = l := by
  intro l
  induction l with
  | nil => intro _; rfl
  | cons t ts ih =>
    intro h
    rcases List.nodup_cons.mp h with ⟨htn, hts⟩
    rw [eraseDupsKeepFirst, ih hts, List.filter_eq_self.mpr]
    intro u hu
    exact bne_iff_ne.mpr (fun huv => htn (huv ▸ hu))

/-! ### Lemmas about one iteration of the match loop -/

theorem applyMatch_keys {st st' : List (String × Stats)} {m : MatchRec}
    (h : applyMatch st m = some st') : st'.map Prod.fst = st.map Prod.fst := by
  unfold applyMatch at h
  rcases hs1 : m.score1 with _ | s1 <;> rcases hs2 : m.score2 with _ | s2 <;>
    simp only [hs1, hs2, Option.some.injEq, Option.bind_eq_some] at h
  · subst h; rfl
  · subst h; rfl
  · subst h; rfl
  · obtain ⟨st1, h1, st2, h2, st3, h3, st4, h4, st5, h5, st6, h6, h⟩ := h
    split at h
    · simp only [Option.bind_eq_some] at h
      obtain ⟨st7, h7, h8⟩ := h
      rw [updateStats_keys h8, updateStats_keys h7, updateStats_keys h6, updateStats_keys h5,
        updateStats_keys h4, updateStats_keys h3, updateStats_keys h2, updateStats_keys h1]
    · split at h
      · simp only [Option.bind_eq_some] at h
        obtain ⟨st7, h7, h8⟩ := h
        rw [updateStats_keys h8, updateStats_keys h7, updateStats_keys h6, updateStats_keys h5,
          updateStats_keys h4, updateStats_keys h3, updateStats_keys h2, updateStats_keys h1]
      · cases h
        rw [updateStats_keys h6, updateStats_keys h5, updateStats_keys h4, updateStats_keys h3,
          updateStats_keys h2, updateStats_keys h1]

theorem applyMatch_some {st : List (String × Stats)} {m : MatchRec}
    (hmem : m.score1.isSome = true → m.score2.isSome = true →
      m.team1 ∈ st.map Prod.fst ∧ m.team2 ∈ st.map Prod.fst) :
    ∃ st', applyMatch st m = some st' := by
  unfold applyMatch
  rcases hs1 : m.score1 with _ | s1 <;> rcases hs2 : m.score2 with _ | s2 <;> simp only []
  · exact ⟨st, rfl⟩
  · exact ⟨st, rfl⟩
  · exact ⟨st, rfl⟩
  · obtain ⟨ht1, ht2⟩ := hmem (by rw [hs1]; rfl) (by rw [hs2]; rfl)
    obtain ⟨st1, h1, k1⟩ := updateStats_mem_some (fun v => { v with Main := v.Main + 1 }) ht1
    have ht2a : m.team2 ∈ st1.map Prod.fst := by rw [k1]; exact ht2
    obtain ⟨st2, h2, k2⟩ := updateStats_mem_some (fun v => { v with Main := v.Main + 1 }) ht2a
    have ht1b : m.team1 ∈ st2.map Prod.fst := by rw [k2, k1]; exact ht1
    obtain ⟨st3, h3, k3⟩ := updateStats_mem_some (fun v => { v with PF := v.PF + s1 }) ht1b
    have ht1c : m.team1 ∈ st3.map Prod.fst := by rw [k3, k2, k1]; exact ht1
    obtain ⟨st4, h4, k4⟩ := updateStats_mem_some (fun v => { v with PA := v.PA + s2 }) ht1c
    have ht2b : m.team2 ∈ st4.map Prod.fst := by rw [k4, k3, k2, k1]; exact ht2
    obtain ⟨st5, h5, k5⟩ := updateStats_mem_some (fun v => { v with PF := v.PF + s2 }) ht2b
    have ht2c : m.team2 ∈ st5.map Prod.fst := by rw [k5, k4, k3, k2, k1]; exact ht2
    obtain ⟨st6, h6, k6⟩ := updateStats_mem_some (fun v => { v with PA := v.PA + s1 }) ht2c
    have kk : st6.map Prod.fst = st.map Prod.fst := by rw [k6, k5, k4, k3, k2, k1]
    rw [h1, Option.some_bind, h2, Option.some_bind, h3, Option.some_bind, h4, Option.some_bind,
      h5, Option.some_bind, h6, Option.some_bind]
    by_cases hc1 : s2 < s1
    · rw [if_pos hc1]
      have hw1 : m.team1 ∈ st6.map Prod.fst := by rw [kk]; exact ht1
      obtain ⟨st7, h7, k7⟩ := updateStats_mem_some (fun v => { v with Menang := v.Menang + 1 }) hw1
      have hw2 : m.team2 ∈ st7.map Prod.fst := by rw [k7, kk]; exact ht2
      obtain ⟨st8, h8, _⟩ := updateStats_mem_some (fun v => { v with Kalah := v.Kalah + 1 }) hw2
      exact ⟨st8, by rw [h7, Option.some_bind, h8]⟩
    · rw [if_neg hc1]
      by_cases hc2 : s1 < s2
      · rw [if_pos hc2]
        have hw1 : m.team2 ∈ st6.map Prod.fst := by rw [kk]; exact ht2
        obtain ⟨st7, h7, k7⟩ :=
          updateStats_mem_some (fun v => { v with Menang := v.Menang + 1 }) hw1
        have hw2 : m.team1 ∈ st7.map Prod.fst := by rw [k7, kk]; exact ht1
        obtain ⟨st8, h8, _⟩ := updateStats_mem_some (fun v => { v with Kalah := v.Kalah + 1 }) hw2
        exact ⟨st8, by rw [h7, Option.some_bind, h8]⟩
      · rw [if_neg hc2]
        exact ⟨st6, rfl⟩

theorem applyMatch_eq_none {st : List (String × Stats)} {m : MatchRec} {s1 s2 : Nat}
    (hs1 : m.score1 = some s1) (hs2 : m.score2 = some s2)
    (hbad : m.team1 ∉ st.map Prod.fst ∨ m.team2 ∉ st.map Prod.fst) :
    applyMatch st m = none := by
  unfold applyMatch
  simp only [hs1, hs2]
  rcases hbad with hb | hb
  · rw [updateStats_eq_none hb]
    rfl
  · by_cases ht1 : m.team1 ∈ st.map Prod.fst
    · have heq := @updateStats_eq_some st m.team1 (fun v => { v with Main := v.Main + 1 }) ht1
      rw [heq, Option.some_bind]
      rw [updateStats_eq_none (by rw [updateStats_keys heq]; exact hb)]
      rfl
    · rw [updateStats_eq_none ht1]
      rfl

theorem applyMatch_lookup_other {st st' : List (String × Stats)} {m : MatchRec} {t : String}
    (h : applyMatch st m = some st')
    (hne : m.score1.isSome = true → m.score2.isSome = true →
      m.team1 ≠ t ∧ m.team2 ≠ t) :
    lookupStats st' t = lookupStats st t := by
  unfold applyMatch at h
  rcases hs1 : m.score1 with _ | s1 <;> rcases hs2 : m.score2 with _ | s2 <;>
    simp only [hs1, hs2, Option.some.injEq, Option.bind_eq_some] at h
  · subst h; rfl
  · subst h; rfl
  · subst h; rfl
  · obtain ⟨hne1, hne2⟩ := hne (by rw [hs1]; rfl) (by rw [hs2]; rfl)
    have hi1 : ¬ t = m.team1 := fun hh => hne1 hh.symm
    have hi2 : ¬ t = m.team2 := fun hh => hne2 hh.symm
    obtain ⟨st1, h1, st2, h2, st3, h3, st4, h4, st5, h5, st6, h6, h⟩ := h
    have l6 : lookupStats st6 t = lookupStats st t := by
      rw [lookupStats_updateStats h6 t, if_neg hi2, lookupStats_updateStats h5 t, if_neg hi2,
        lookupStats_updateStats h4 t, if_neg hi1, lookupStats_updateStats h3 t, if_neg hi1,
        lookupStats_updateStats h2 t, if_neg hi2, lookupStats_updateStats h1 t, if_neg hi1]
    split at h
    · simp only [Option.bind_eq_some] at h
      obtain ⟨st7, h7, h8⟩ := h
      rw [lookupStats_updateStats h8 t, if_neg hi2, lookupStats_updateStats h7 t, if_neg hi1, l6]
    · split at h
      · simp only [Option.bind_eq_some] at h
        obtain ⟨st7, h7, h8⟩ := h
        rw [lookupStats_updateStats h8 t, if_neg hi1, lookupStats_updateStats h7 t, if_neg hi2, l6]
      · cases h
        exact l6

/-! ### Lemmas about the whole match loop -/

theorem foldl_step_none : ∀ (ms : List MatchRec),
    ms.foldl (fun acc m => acc.bind (fun st => applyMatch st m)) none = none := by
  intro ms
  induction ms with
  | nil => rfl
  | cons m ms ih => simpa using ih

theorem foldMatches_keys : ∀ (ms : List MatchRec) (st st' : List (String × Stats)),
    foldMatches ms st = some st' → st'.map Prod.fst = st.map Prod.fst := by
  intro ms
  induction ms with
  | nil =>
    intro st st' h
    simp only [foldMatches, List.foldl_nil, Option.some.injEq] at h
    subst h
    rfl
  | cons m ms ih =>
    intro st st' h
    simp only [foldMatches, List.foldl_cons, Option.some_bind] at h
    rcases ha : applyMatch st m with _ | st1
    · rw [ha, foldl_step_none] at h
      cases h
    · rw [ha] at h
      rw [ih st1 st' h, applyMatch_keys ha]

theorem foldMatches_some : ∀ (ms : List MatchRec) (st : List (String × Stats)),
    (∀ m ∈ ms, m.score1.isSome = true → m.score2.isSome = true →
      m.team1 ∈ st.map Prod.fst ∧ m.team2 ∈ st.map Prod.fst) →
    ∃ st', foldMatches ms st = some st' := by
  intro ms
  induction ms with
  | nil => exact fun st _ => ⟨st, rfl⟩
  | cons m ms ih =>
    intro st hmem
    obtain ⟨st1, h1⟩ := applyMatch_some (hmem m (List.mem_cons_self m ms))
    have hk := applyMatch_keys h1
    obtain ⟨st', h'⟩ := ih st1 (fun m' hm' hs1 hs2 => by
      rw [hk]
      exact hmem m' (List.mem_cons_of_mem m hm') hs1 hs2)
    refine ⟨st', ?_⟩
    simp only [foldMatches, List.foldl_cons, Option.some_bind]
    rw [h1]
    exact h'

theorem foldMatches_lookup : ∀ (ms : List MatchRec) (st st' : List (String × Stats)) (t : String),
    foldMatches ms st = some st' →
    (∀ m ∈ ms, m.score1.isSome = true → m.score2.isSome = true →
      m.team1 ≠ t ∧ m.team2 ≠ t) →
    lookupStats st' t = lookupStats st t := by
  intro ms
  induction ms with
  | nil =>
    intro st st' t h _
    simp only [foldMatches, List.foldl_nil, Option.some.injEq] at h
    subst h
    rfl
  | cons m ms ih =>
    intro st st' t h hne
    simp only [foldMatches, List.foldl_cons, Option.some_bind] at h
    rcases ha : applyMatch st m with _ | st1
    · rw [ha, foldl_step_none] at h
      cases h
    · rw [ha] at h
      rw [ih st1 st' t h (fun m' hm' => hne m' (List.mem_cons_of_mem m hm')),
        applyMatch_lookup_other ha (hne m (List.mem_cons_self m ms))]

theorem foldMatches_bad : ∀ (ms : List MatchRec) (st : List (String × Stats)) (m : MatchRec),
    m ∈ ms → m.score1.isSome = true → m.score2.isSome = true →
    (m.team1 ∉ st.map Prod.fst ∨ m.team2 ∉ st.map Prod.fst) →
    foldMatches ms st = none := by
  intro ms
  induction ms with
  | nil =>
    intro st m hm
    cases hm
  | cons m' ms ih =>
    intro st m hm hs1 hs2 hbad
    obtain ⟨s1, hs1'⟩ := Option.isSome_iff_exists.mp hs1
    obtain ⟨s2, hs2'⟩ := Option.isSome_iff_exists.mp hs2
    simp only [foldMatches, List.foldl_cons, Option.some_bind]
    rcases List.mem_cons.mp hm with rfl | hm'
    · rw [applyMatch_eq_none hs1' hs2' hbad, foldl_step_none]
    · rcases ha : applyMatch st m' with _ | st1
      · rw [foldl_step_none]
      · have := ih st1 m hm' hs1 hs2 (by rw [applyMatch_keys ha]; exact hbad)
        exact this

/-! ### Structure of a successfully computed standings table -/

theorem initStats_keys (teams : List String) :
    (initStats teams).map Prod.fst = eraseDupsKeepFirst teams := by
  rw [initStats, List.map_map,
    show (Prod.fst ∘ fun t : String => (t, zeroStats)) = id from rfl, List.map_id]

theorem lookupStats_const_map {t : String} : ∀ {l : List String}, t ∈ l →
    lookupStats (l.map (fun u => (u, zeroStats))) t = some zeroStats := by
  intro l
  induction l with
  | nil => intro h; cases h
  | cons u l ih =>
    intro h
    simp only [List.map_cons, lookupStats, beq_iff_eq]
    by_cases hut : u = t
    · rw [if_pos hut]
    · rw [if_neg hut]
      exact ih ((List.mem_cons.mp h).resolve_left (fun hh => hut hh.symm))

theorem lookupStats_initStats {teams : List String} {t : String} (h : t ∈ teams) :
    lookupStats (initStats teams) t = some zeroStats :=
  lookupStats_const_map (mem_eraseDupsKeepFirst.mpr h)

theorem klasemen_cases {s : Store} {g : String} {rows : List Row}
    (h : calculate_klasemen s g = some rows) :
    (get_grup_teams s g = [] ∧ rows = []) ∨
    ∃ stats, foldMatches (completedMatches s g) (initStats (get_grup_teams s g)) = some stats ∧
      rows = List.insertionSort rowBefore (stats.map (fun p => mkRow p.1 p.2)) ∧
      stats.map Prod.fst = eraseDupsKeepFirst (get_grup_teams s g) := by
  rcases hemp : (get_grup_teams s g).isEmpty with _ | _
  · right
    simp only [calculate_klasemen, hemp, Bool.false_eq_true, if_false] at h
    rcases hmap : foldMatches (completedMatches s g) (initStats (get_grup_teams s g)) with _ | stats
    · rw [hmap] at h
      cases h
    · rw [hmap] at h
      cases h
      exact ⟨stats, rfl, rfl, (foldMatches_keys _ _ _ hmap).trans (initStats_keys _)⟩
  · left
    simp only [calculate_klasemen, hemp, if_true, Option.some.injEq] at h
    exact ⟨List.isEmpty_iff.mp hemp, h.symm⟩

theorem klasemen_tim_perm {s : Store} {g : String} {rows : List Row}
    (h : calculate_klasemen s g = some rows) :
    (rows.map Row.Tim).Perm (eraseDupsKeepFirst (get_grup_teams s g)) := by
  rcases klasemen_cases h with ⟨ht, hr⟩ | ⟨stats, _, hr, hk⟩
  · rw [ht, hr]
    exact List.Perm.refl _
  · subst hr
    refine (List.Perm.map Row.Tim (List.perm_insertionSort rowBefore _)).trans ?_
    rw [List.map_map,
      show (Row.Tim ∘ fun p : String × Stats => mkRow p.1 p.2) = Prod.fst from rfl, hk]

theorem klasemen_tim_nodup {s : Store} {g : String} {rows : List Row}
    (h : calculate_klasemen s g = some rows) : (rows.map Row.Tim).Nodup :=
  ((klasemen_tim_perm h).nodup_iff).mpr (nodup_eraseDupsKeepFirst _)

theorem klasemen_row_laws {s : Store} {g : String} {rows : List Row}
    (h : calculate_klasemen s g = some rows) :
    ∀ r ∈ rows, r.Poin = r.Menang * 3 ∧ r.Selisih = (r.PF : Int) - (r.PA : Int) := by
  rcases klasemen_cases h with ⟨_, hr⟩ | ⟨stats, _, hr, _⟩
  · subst hr
    intro r hr
    cases hr
  · subst hr
    intro r hr
    have hmem := (List.perm_insertionSort rowBefore _).subset hr
    obtain ⟨p, _, rfl⟩ := List.mem_map.mp hmem
    exact ⟨rfl, rfl⟩

theorem klasemen_pairwise {s : Store} {g : String} {rows : List Row}
    (h : calculate_klasemen s g = some rows) : rows.Pairwise rowBefore := by
  rcases klasemen_cases h with ⟨_, hr⟩ | ⟨stats, _, hr, _⟩
  · subst hr
    exact List.Pairwise.nil
  · subst hr
    exact List.sorted_insertionSort rowBefore _

/-! ### The readiness gate -/

theorem min?_ge_three_iff (l : List Nat) :
    (match l.min? with | some m => decide (3 ≤ m) | none => false) = true ↔
      (l ≠ [] ∧ ∀ x ∈ l, 3 ≤ x) := by
  rcases hm : l.min? with _ | m
  · simp only [Bool.false_eq_true, false_iff, not_and]
    intro hne
    exact absurd (List.min?_eq_none_iff.mp hm) hne
  · simp only [decide_eq_true_eq]
    have hiff : l.min? = some m ↔ m ∈ l ∧ ∀ b ∈ l, m ≤ b :=
      List.min?_eq_some_iff (fun a : Nat => Nat.le_refl a)
        (fun a b => by omega) (fun a b c => by omega)
    obtain ⟨hmem, hle⟩ := hiff.mp hm
    constructor
    · intro h3
      exact ⟨List.ne_nil_of_mem hmem, fun x hx => le_trans h3 (hle x hx)⟩
    · intro ⟨_, hall⟩
      exact hall m hmem

/-- C1: the readiness gate is true exactly when the table has at least 4
rows and every row has played at least 3 games; consequently a 3-team
table is never ready, a 4-team table with all games-played equal to 3 is
ready, and a 4-team table where some team has played only 2 games is not
ready. -/
theorem claim_C1 (rows : List Row) :
    (isReady rows = true ↔ (4 ≤ rows.length ∧ ∀ r ∈ rows, 3 ≤ r.Main)) ∧
    (rows.length = 3 → isReady rows = false) ∧
    (rows.length = 4 → (∀ r ∈ rows, r.Main = 3) → isReady rows = true) ∧
    (rows.length = 4 → (∃ r ∈ rows, r.Main = 2) → isReady rows = false) := by
  have hmain : isReady rows = true ↔ (4 ≤ rows.length ∧ ∀ r ∈ rows, 3 ≤ r.Main) := by
    unfold isReady
    rw [Bool.and_eq_true, decide_eq_true_eq, min?_ge_three_iff]
    constructor
    · rintro ⟨h4, _, hall⟩
      exact ⟨h4, fun r hr => hall r.Main (List.mem_map_of_mem Row.Main hr)⟩
    · rintro ⟨h4, hall⟩
      refine ⟨h4, ?_, ?_⟩
      · intro hnil
        rw [List.map_eq_nil_iff] at hnil
        subst hnil
        exact absurd h4 (by decide)
      · intro x hx
        obtain ⟨r, hr, rfl⟩ := List.mem_map.mp hx
        exact hall r hr
  refine ⟨hmain, ?_, ?_, ?_⟩
  · intro h3
    rcases hb : isReady rows with _ | _
    · rfl
    · obtain ⟨h4, _⟩ := hmain.mp hb
      rw [h3] at h4
      exact absurd h4 (by decide)
  · intro h4 hall
    exact hmain.mpr ⟨by rw [h4], fun r hr => le_of_eq (hall r hr).symm⟩
  · intro h4 hex
    rcases hb : isReady rows with _ | _
    · rfl
    · obtain ⟨_, hall⟩ := hmain.mp hb
      obtain ⟨r, hr, h2⟩ := hex
      have := hall r hr
      rw [h2] at this
      exact absurd this (by decide)

/-- Witness for C1 at concrete tables: a 3-row table (never ready), a
4-row table with all `Main = 3` (ready), and a 4-row table with one
`Main = 2` (not ready). -/
theorem claim_C1_witness :
    isReady [mkRow "a" ⟨3, 3, 0, 9, 0⟩, mkRow "b" ⟨3, 2, 1, 6, 3⟩, mkRow "c" ⟨3, 0, 3, 0, 9⟩]
        = false ∧
    isReady [mkRow "a" ⟨3, 3, 0, 9, 0⟩, mkRow "b" ⟨3, 2, 1, 6, 3⟩, mkRow "c" ⟨3, 1, 2, 3, 6⟩,
        mkRow "d" ⟨3, 0, 3, 0, 9⟩] = true ∧
    isReady [mkRow "a" ⟨3, 3, 0, 9, 0⟩, mkRow "b" ⟨3, 2, 1, 6, 3⟩, mkRow "c" ⟨3, 1, 2, 3, 6⟩,
        mkRow "d" ⟨2, 0, 2, 0, 6⟩] = false :=
  ⟨(claim_C1 _).2.1 rfl,
   (claim_C1 _).2.2.1 rfl (by decide),
   (claim_C1 _).2.2.2 rfl (by decide)⟩

/-- C5: with a duplicate-free roster and matches satisfying the store
invariant, the standings have exactly one row per registered team (the
row names are a permutation of the roster), and an empty roster yields
the empty table rather than an error. -/
theorem claim_C5 (s : Store) (g : String)
    (hnodup : (get_grup_teams s g).Nodup) (hvalid : validMatches s g) :
    (get_grup_teams s g ≠ [] →
      ∃ rows, calculate_klasemen s g = some rows ∧
        (rows.map Row.Tim).Perm (get_grup_teams s g)) ∧
    (get_grup_teams s g = [] → calculate_klasemen s g = some []) := by
  constructor
  · intro hne
    have hmem : ∀ m ∈ completedMatches s g, m.score1.isSome = true → m.score2.isSome = true →
        m.team1 ∈ (initStats (get_grup_teams s g)).map Prod.fst ∧
        m.team2 ∈ (initStats (get_grup_teams s g)).map Prod.fst := by
      intro m hm h1 h2
      rw [initStats_keys, eraseDupsKeepFirst_of_nodup hnodup]
      exact hvalid m hm h1 h2
    obtain ⟨stats, hf⟩ := foldMatches_some _ _ hmem
    have hk : calculate_klasemen s g =
        some (List.insertionSort rowBefore (stats.map fun p => mkRow p.1 p.2)) := by
      simp only [calculate_klasemen]
      rw [if_neg (fun hh => hne (List.isEmpty_iff.mp hh)), hf]
      rfl
    refine ⟨_, hk, ?_⟩
    have hperm := klasemen_tim_perm hk
    rwa [eraseDupsKeepFirst_of_nodup hnodup] at hperm
  · intro he
    simp only [calculate_klasemen]
    rw [if_pos (List.isEmpty_iff.mpr he)]

/-- Witness for C5: a three-team group with one completed draw gets one
row per team, and a store with no teams yields the empty table. -/
theorem claim_C5_witness :
    (∃ rows, calculate_klasemen storeDraw "A" = some rows ∧
      (rows.map Row.Tim).Perm (get_grup_teams storeDraw "A")) ∧
    calculate_klasemen ⟨[], []⟩ "A" = some [] :=
  ⟨(claim_C5 storeDraw "A" (by decide) (by decide)).1 (by decide),
   (claim_C5 ⟨[], []⟩ "A" (by decide) (by decide)).2 (by decide)⟩

/-- C6: every returned standings table is non-increasing in `Poin` and,
at equal `Poin`, non-increasing in `Selisih`; and every row satisfies
`Poin = Menang * 3` and `Selisih = PF - PA`. -/
theorem claim_C6 (s : Store) (g : String) (rows : List Row)
    (h : calculate_klasemen s g = some rows) :
    rows.Pairwise (fun a b => b.Poin ≤ a.Poin ∧ (a.Poin = b.Poin → b.Selisih ≤ a.Selisih)) ∧
    ∀ r ∈ rows, r.Poin = r.Menang * 3 ∧ r.Selisih = (r.PF : Int) - (r.PA : Int) := by
  refine ⟨(klasemen_pairwise h).imp ?_, klasemen_row_laws h⟩
  intro a b hab
  unfold rowBefore at hab
  exact ⟨by omega, fun he => by omega⟩

/-- Witness for C6 at the draw store: the computed table is sorted and
satisfies the row laws. -/
theorem claim_C6_witness :
    ([⟨"Z", 0, 0, 0, 0, 0, 0, 0⟩, ⟨"X", 1, 0, 0, 5, 5, 0, 0⟩,
        ⟨"Y", 1, 0, 0, 5, 5, 0, 0⟩] : List Row).Pairwise
      (fun a b => b.Poin ≤ a.Poin ∧ (a.Poin = b.Poin → b.Selisih ≤ a.Selisih)) ∧
    ∀ r ∈ ([⟨"Z", 0, 0, 0, 0, 0, 0, 0⟩, ⟨"X", 1, 0, 0, 5, 5, 0, 0⟩,
        ⟨"Y", 1, 0, 0, 5, 5, 0, 0⟩] : List Row),
      r.Poin = r.Menang * 3 ∧ r.Selisih = (r.PF : Int) - (r.PA : Int) :=
  claim_C6 storeDraw "A" _ (by decide)

/-- C7: one loop iteration on a completed match with non-null scores
`(s1, s2)` between two distinct registered teams adds one game to both,
adds `s1` to `team1`'s PF and `team2`'s PA (and symmetrically `s2`),
credits the win/loss only to the higher scorer (neither on a draw); a
match with a null score leaves the accumulators untouched. -/
theorem claim_C7 :
    (∀ (stats : List (String × Stats)) (m : MatchRec) (s1 s2 : Nat) (v1 v2 : Stats),
      m.score1 = some s1 → m.score2 = some s2 → m.team1 ≠ m.team2 →
      lookupStats stats m.team1 = some v1 → lookupStats stats m.team2 = some v2 →
      ∃ stats', applyMatch stats m = some stats' ∧
        lookupStats stats' m.team1 = some
          ⟨v1.Main + 1, v1.Menang + (if s2 < s1 then 1 else 0),
            v1.Kalah + (if s1 < s2 then 1 else 0), v1.PF + s1, v1.PA + s2⟩ ∧
        lookupStats stats' m.team2 = some
          ⟨v2.Main + 1, v2.Menang + (if s1 < s2 then 1 else 0),
            v2.Kalah + (if s2 < s1 then 1 else 0), v2.PF + s2, v2.PA + s1⟩) ∧
    (∀ (stats : List (String × Stats)) (m : MatchRec),
      m.score1 = none ∨ m.score2 = none → applyMatch stats m = some stats) := by
  constructor
  · intro stats m s1 s2 v1 v2 hs1 hs2 hne hl1 hl2
    have ht1 : m.team1 ∈ stats.map Prod.fst :=
      List.mem_map.mpr ⟨(m.team1, v1), lookupStats_mem hl1, rfl⟩
    have ht2 : m.team2 ∈ stats.map Prod.fst :=
      List.mem_map.mpr ⟨(m.team2, v2), lookupStats_mem hl2, rfl⟩
    have hi1 : ¬ m.team2 = m.team1 := fun hh => hne hh.symm
    have hi2 : ¬ m.team1 = m.team2 := hne
    unfold applyMatch
    simp only [hs1, hs2]
    obtain ⟨st1, h1, k1⟩ := updateStats_mem_some (fun v => { v with Main := v.Main + 1 }) ht1
    have ht2a : m.team2 ∈ st1.map Prod.fst := by rw [k1]; exact ht2
    obtain ⟨st2, h2, k2⟩ := updateStats_mem_some (fun v => { v with Main := v.Main + 1 }) ht2a
    have ht1b : m.team1 ∈ st2.map Prod.fst := by rw [k2, k1]; exact ht1
    obtain ⟨st3, h3, k3⟩ := updateStats_mem_some (fun v => { v with PF := v.PF + s1 }) ht1b
    have ht1c : m.team1 ∈ st3.map Prod.fst := by rw [k3, k2, k1]; exact ht1
    obtain ⟨st4, h4, k4⟩ := updateStats_mem_some (fun v => { v with PA := v.PA + s2 }) ht1c
    have ht2b : m.team2 ∈ st4.map Prod.fst := by rw [k4, k3, k2, k1]; exact ht2
    obtain ⟨st5, h5, k5⟩ := updateStats_mem_some (fun v => { v with PF := v.PF + s2 }) ht2b
    have ht2c : m.team2 ∈ st5.map Prod.fst := by rw [k5, k4, k3, k2, k1]; exact ht2
    obtain ⟨st6, h6, k6⟩ := updateStats_mem_some (fun v => { v with PA := v.PA + s1 }) ht2c
    have L1a : lookupStats st1 m.team1 =
        some ⟨v1.Main + 1, v1.Menang, v1.Kalah, v1.PF, v1.PA⟩ := by
      rw [lookupStats_updateStats h1 m.team1, if_pos rfl, hl1]
      rfl
    have L1b : lookupStats st1 m.team2 = some v2 := by
      rw [lookupStats_updateStats h1 m.team2, if_neg hi1, hl2]
    have L2a : lookupStats st2 m.team1 =
        some ⟨v1.Main + 1, v1.Menang, v1.Kalah, v1.PF, v1.PA⟩ := by
      rw [lookupStats_updateStats h2 m.team1, if_neg hi2, L1a]
    have L2b : lookupStats st2 m.team2 =
        some ⟨v2.Main + 1, v2.Menang, v2.Kalah, v2.PF, v2.PA⟩ := by
      rw [lookupStats_updateStats h2 m.team2, if_pos rfl, L1b]
      rfl
    have L3a : lookupStats st3 m.team1 =
        some ⟨v1.Main + 1, v1.Menang, v1.Kalah, v1.PF + s1, v1.PA⟩ := by
      rw [lookupStats_updateStats h3 m.team1, if_pos rfl, L2a]
      rfl
    have L3b : lookupStats st3 m.team2 =
        some ⟨v2.Main + 1, v2.Menang, v2.Kalah, v2.PF, v2.PA⟩ := by
      rw [lookupStats_updateStats h3 m.team2, if_neg hi1, L2b]
    have L4a : lookupStats st4 m.team1 =
        some ⟨v1.Main + 1, v1.Menang, v1.Kalah, v1.PF + s1, v1.PA + s2⟩ := by
      rw [lookupStats_updateStats h4 m.team1, if_pos rfl, L3a]
      rfl
    have L4b : lookupStats st4 m.team2 =
        some ⟨v2.Main + 1, v2.Menang, v2.Kalah, v2.PF, v2.PA⟩ := by
      rw [lookupStats_updateStats h4 m.team2, if_neg hi1, L3b]
    have L5a : lookupStats st5 m.team1 =
        some ⟨v1.Main + 1, v1.Menang, v1.Kalah, v1.PF + s1, v1.PA + s2⟩ := by
      rw [lookupStats_updateStats h5 m.team1, if_neg hi2, L4a]
    have L5b : lookupStats st5 m.team2 =
        some ⟨v2.Main + 1, v2.Menang, v2.Kalah, v2.PF + s2, v2.PA⟩ := by
      rw [lookupStats_updateStats h5 m.team2, if_pos rfl, L4b]
      rfl
    have L6a : lookupStats st6 m.team1 =
        some ⟨v1.Main + 1, v1.Menang, v1.Kalah, v1.PF + s1, v1.PA + s2⟩ := by
      rw [lookupStats_updateStats h6 m.team1, if_neg hi2, L5a]
    have L6b : lookupStats st6 m.team2 =
        some ⟨v2.Main + 1, v2.Menang, v2.Kalah, v2.PF + s2, v2.PA + s1⟩ := by
      rw [lookupStats_updateStats h6 m.team2, if_pos rfl, L5b]
      rfl
    rw [h1, Option.some_bind, h2, Option.some_bind, h3, Option.some_bind, h4, Option.some_bind,
      h5, Option.some_bind, h6, Option.some_bind]
    by_cases hc1 : s2 < s1
    · rw [if_pos hc1]
      have hw1 : m.team1 ∈ st6.map Prod.fst := by rw [k6, k5, k4, k3, k2, k1]; exact ht1
      obtain ⟨st7, h7, k7⟩ :=
        updateStats_mem_some (fun v => { v with Menang := v.Menang + 1 }) hw1
      have hw2 : m.team2 ∈ st7.map Prod.fst := by
        rw [k7, k6, k5, k4, k3, k2, k1]; exact ht2
      obtain ⟨st8, h8, _⟩ := updateStats_mem_some (fun v => { v with Kalah := v.Kalah + 1 }) hw2
      rw [h7, Option.some_bind, h8]
      refine ⟨st8, rfl, ?_, ?_⟩
      · rw [lookupStats_updateStats h8 m.team1, if_neg hi2,
          lookupStats_updateStats h7 m.team1, if_pos rfl, L6a,
          if_pos hc1, if_neg (by omega : ¬ s1 < s2), Nat.add_zero]
        rfl
      · rw [lookupStats_updateStats h8 m.team2, if_pos rfl,
          lookupStats_updateStats h7 m.team2, if_neg hi1, L6b,
          if_pos hc1, if_neg (by omega : ¬ s1 < s2), Nat.add_zero]
        rfl
    · rw [if_neg hc1]
      by_cases hc2 : s1 < s2
      · rw [if_pos hc2]
        have hw1 : m.team2 ∈ st6.map Prod.fst := by rw [k6, k5, k4, k3, k2, k1]; exact ht2
        obtain ⟨st7, h7, k7⟩ :=
          updateStats_mem_some (fun v => { v with Menang := v.Menang + 1 }) hw1
        have hw2 : m.team1 ∈ st7.map Prod.fst := by
          rw [k7, k6, k5, k4, k3, k2, k1]; exact ht1
        obtain ⟨st8, h8, _⟩ :=
          updateStats_mem_some (fun v => { v with Kalah := v.Kalah + 1 }) hw2
        rw [h7, Option.some_bind, h8]
        refine ⟨st8, rfl, ?_, ?_⟩
        · rw [lookupStats_updateStats h8 m.team1, if_pos rfl,
            lookupStats_updateStats h7 m.team1, if_neg hi2, L6a,
            if_pos hc2, if_neg hc1, Nat.add_zero]
          rfl
        · rw [lookupStats_updateStats h8 m.team2, if_neg hi1,
            lookupStats_updateStats h7 m.team2, if_pos rfl, L6b,
            if_pos hc2, if_neg hc1, Nat.add_zero]
          rfl
      · rw [if_neg hc2]
        refine ⟨st6, rfl, ?_, ?_⟩
        · rw [L6a, if_neg hc1, if_neg hc2]
          rfl
        · rw [L6b, if_neg hc1, if_neg hc2]
          rfl
  · intro stats m h
    unfold applyMatch
    rcases hs1 : m.score1 with _ | s1 <;> rcases hs2 : m.score2 with _ | s2 <;>
        simp only [hs1, hs2]
    rcases h with h | h
    · rw [hs1] at h
      cases h
    · rw [hs2] at h
      cases h

/-- Witness for C7: a concrete 5:3 match between `x` and `y`, and a
null-score match, applied to zeroed accumulators. -/
theorem claim_C7_witness :
    (∃ stats', applyMatch [("x", zeroStats), ("y", zeroStats)] (doneMatch "A" "x" "y" 5 3)
        = some stats' ∧
      lookupStats stats' "x" = some ⟨1, 0 + (if 3 < 5 then 1 else 0),
        0 + (if 5 < 3 then 1 else 0), 0 + 5, 0 + 3⟩ ∧
      lookupStats stats' "y" = some ⟨1, 0 + (if 5 < 3 then 1 else 0),
        0 + (if 3 < 5 then 1 else 0), 0 + 3, 0 + 5⟩) ∧
    applyMatch [("x", zeroStats)] ⟨"A", "x", "y", none, none, some "Selesai"⟩
      = some [("x", zeroStats)] :=
  ⟨claim_C7.1 [("x", zeroStats), ("y", zeroStats)] (doneMatch "A" "x" "y" 5 3) 5 3
      zeroStats zeroStats rfl rfl (by decide) (by decide) (by decide),
   claim_C7.2 [("x", zeroStats)] ⟨"A", "x", "y", none, none, some "Selesai"⟩ (Or.inl rfl)⟩

/-- C8 (amended): a registered team appearing in no completed match still
gets an all-zero row, and every row placed after it has zero wins and
zero points — so zero-games teams come after every team with a win, but
not necessarily after winless teams that have played. -/
theorem claim_C8 (s : Store) (g : String) (t : String)
    (hnodup : (get_grup_teams s g).Nodup) (hvalid : validMatches s g)
    (ht : t ∈ get_grup_teams s g)
    (hun : ∀ m ∈ completedMatches s g, m.score1.isSome = true → m.score2.isSome = true →
      m.team1 ≠ t ∧ m.team2 ≠ t) :
    ∃ rows l1 l2, calculate_klasemen s g = some rows ∧
      rows = l1 ++ mkRow t zeroStats :: l2 ∧
      ∀ w ∈ l2, w.Menang = 0 ∧ w.Poin = 0 := by
  have hne : get_grup_teams s g ≠ [] := List.ne_nil_of_mem ht
  have hmem : ∀ m ∈ completedMatches s g, m.score1.isSome = true → m.score2.isSome = true →
      m.team1 ∈ (initStats (get_grup_teams s g)).map Prod.fst ∧
      m.team2 ∈ (initStats (get_grup_teams s g)).map Prod.fst := by
    intro m hm h1 h2
    rw [initStats_keys, eraseDupsKeepFirst_of_nodup hnodup]
    exact hvalid m hm h1 h2
  obtain ⟨stats, hf⟩ := foldMatches_some _ _ hmem
  have hk : calculate_klasemen s g =
      some (List.insertionSort rowBefore (stats.map fun p => mkRow p.1 p.2)) := by
    simp only [calculate_klasemen]
    rw [if_neg (fun hh => hne (List.isEmpty_iff.mp hh)), hf]
    rfl
  have hlook : lookupStats stats t = some zeroStats := by
    rw [foldMatches_lookup _ _ _ t hf hun]
    exact lookupStats_initStats ht
  have hrowmem : mkRow t zeroStats ∈
      List.insertionSort rowBefore (stats.map fun p => mkRow p.1 p.2) := by
    refine (List.perm_insertionSort rowBefore _).mem_iff.mpr ?_
    exact List.mem_map.mpr ⟨(t, zeroStats), lookupStats_mem hlook, rfl⟩
  obtain ⟨l1, l2, hsplit⟩ := List.append_of_mem hrowmem
  refine ⟨_, l1, l2, hk, hsplit, ?_⟩
  have hpw := klasemen_pairwise hk
  rw [hsplit] at hpw
  have hpost : ∀ w ∈ l2, rowBefore (mkRow t zeroStats) w := by
    have := (List.pairwise_append.mp hpw).2.1
    exact fun w hw => (List.pairwise_cons.mp this).1 w hw
  intro w hw
  have hrb := hpost w hw
  have hwrow : w ∈ List.insertionSort rowBefore (stats.map fun p => mkRow p.1 p.2) := by
    rw [hsplit]
    exact List.mem_append.mpr (Or.inr (List.mem_cons_of_mem _ hw))
  have hlaw := (klasemen_row_laws hk w hwrow).1
  unfold rowBefore at hrb
  have hz : (mkRow t zeroStats).Poin = 0 := rfl
  rw [hz] at hrb
  have hp0 : w.Poin = 0 := by omega
  exact ⟨by omega, hp0⟩

/-- Witness for C8 at the draw store: team `Z` has played no completed
match; its all-zero row splits the table with only winless rows after it. -/
theorem claim_C8_witness :
    ∃ rows l1 l2, calculate_klasemen storeDraw "A" = some rows ∧
      rows = l1 ++ mkRow "Z" zeroStats :: l2 ∧
      ∀ w ∈ l2, w.Menang = 0 ∧ w.Poin = 0 :=
  claim_C8 storeDraw "A" "Z" (by decide) (by decide) (by decide) (by decide)

/-- Counterexample to C8 as stated: after the completed draw `X 5:5 Y`,
the zero-games team `Z` is ranked first, before both teams that have
played a completed match, because all three rows share the key
`(Poin, Selisih) = (0, 0)` and the stable sort keeps registration order. -/
theorem claim_C8_counterexample :
    calculate_klasemen storeDraw "A" =
      some [⟨"Z", 0, 0, 0, 0, 0, 0, 0⟩, ⟨"X", 1, 0, 0, 5, 5, 0, 0⟩,
        ⟨"Y", 1, 0, 0, 5, 5, 0, 0⟩] := by
  decide

/-- C9 (amended): in a group with at least one registered team, a
completed match with non-null scores referencing an unregistered team
makes the standings computation fail with a lookup error (`none`). -/
theorem claim_C9 (s : Store) (g : String) (m : MatchRec) (s1 s2 : Nat)
    (hne : get_grup_teams s g ≠ [])
    (hm : m ∈ completedMatches s g) (hs1 : m.score1 = some s1) (hs2 : m.score2 = some s2)
    (hbad : m.team1 ∉ get_grup_teams s g ∨ m.team2 ∉ get_grup_teams s g) :
    calculate_klasemen s g = none := by
  simp only [calculate_klasemen]
  rw [if_neg (fun hh => hne (List.isEmpty_iff.mp hh))]
  rw [foldMatches_bad (completedMatches s g) _ m hm (by rw [hs1]; rfl) (by rw [hs2]; rfl) ?_]
  · rfl
  · rw [initStats_keys]
    rcases hbad with hb | hb
    · exact Or.inl (fun hmem => hb (mem_eraseDupsKeepFirst.mp hmem))
    · exact Or.inr (fun hmem => hb (mem_eraseDupsKeepFirst.mp hmem))

/-- Witness for C9: the completed match `u 5:3 x` references the
unregistered team `u`, so the standings computation fails. -/
theorem claim_C9_witness : calculate_klasemen storeBadTeam "A" = none :=
  claim_C9 storeBadTeam "A" (doneMatch "A" "u" "x" 5 3) 5 3 (by decide) (by decide)
    rfl rfl (by decide)

/-- Counterexample to C9 as stated: a completed match with a null score
referencing the unregistered teams `u` and `v` is skipped before any team
lookup, so the computation silently returns the zero table instead of
failing. -/
theorem claim_C9_counterexample :
    ("u" ∉ get_grup_teams storeNullBad "A") ∧
    (⟨"A", "u", "v", none, none, some "Selesai"⟩ : MatchRec) ∈
      completedMatches storeNullBad "A" ∧
    calculate_klasemen storeNullBad "A" =
      some [⟨"x", 0, 0, 0, 0, 0, 0, 0⟩, ⟨"y", 0, 0, 0, 0, 0, 0, 0⟩] := by
  decide

/-- C2 (amended): the final-bracket page refuses — explicit not-ready
warning, no draw built — exactly when the readiness loop completes and
reports some group not ready; the group count itself is never checked. -/
theorem claim_C2 (s : Store) :
    show_final_bracket_outcome s = .refused ↔ allGroupsReady s = some false := by
  unfold show_final_bracket_outcome
  rcases hg : allGroupsReady s with _ | b
  · simp [hg]
  · rcases b with _ | _
    · simp [hg]
    · rcases hd : final_draw s with _ | d
      · simp [hg, hd]
      · simp [hg, hd]

/-- Witness for C2 at a store whose only group has a single team: the
loop reports not ready and the page refuses. -/
theorem claim_C2_witness : show_final_bracket_outcome storeTiny = .refused :=
  (claim_C2 storeTiny).mpr (by decide)

/-- Counterexample to C2 as stated: `store5` has five groups, all ready,
and the page silently generates a bracket drawn from groups `A`-`D`
only — group `E`'s winner `q` is omitted — instead of refusing with an
unsupported-group-count signal. -/
theorem claim_C2_counterexample :
    get_all_grups store5 = ["A", "B", "C", "D", "E"] ∧
    (∀ g ∈ get_all_grups store5, groupReady store5 g = true) ∧
    groupWinner store5 "E" = some "q" ∧
    show_final_bracket_outcome store5 =
      .drawMade ["a", "g", "i", "o", "e", "c", "m", "k"] ∧
    "q" ∉ (["a", "g", "i", "o", "e", "c", "m", "k"] : List String) := by
  decide

/-- C3: the default draw is the shuffled draw at the identity label
order, and every draw generated from a permutation of `["A","B","C","D"]`
pairs, in each of its four first-round ties, the `juara_grup` entry of
one label with the `runner_up` entry of a different label — no tie pits a
group's winner against the same group's runner-up. -/
theorem claim_C3 :
    (∀ s : Store, final_draw s = shuffled_final_draw s ["A", "B", "C", "D"]) ∧
    (∀ (s : Store) (gs : List String) (d : List String),
      gs.Perm ["A", "B", "C", "D"] → shuffled_final_draw s gs = some d →
      ∃ g0 g1 g2 g3, gs = [g0, g1, g2, g3] ∧ g0 ≠ g1 ∧ g2 ≠ g3 ∧
        ∃ w0 u1 w2 u3 w1 u0 w3 u2,
          juaraOf s g0 = some w0 ∧ runnerUpOf s g1 = some u1 ∧
          juaraOf s g2 = some w2 ∧ runnerUpOf s g3 = some u3 ∧
          juaraOf s g1 = some w1 ∧ runnerUpOf s g0 = some u0 ∧
          juaraOf s g3 = some w3 ∧ runnerUpOf s g2 = some u2 ∧
          d = [w0, u1, w2, u3, w1, u0, w3, u2]) := by
  constructor
  · intro s
    rfl
  · intro s gs d hperm hd
    have hlen : gs.length = 4 := by rw [hperm.length_eq]; rfl
    have hnd : gs.Nodup := (hperm.nodup_iff).mpr (by decide)
    rcases gs with _ | ⟨g0, _ | ⟨g1, _ | ⟨g2, _ | ⟨g3, _ | ⟨g4, rest⟩⟩⟩⟩⟩ <;>
        simp only [List.length_nil, List.length_cons] at hlen
    all_goals try omega
    simp only [List.nodup_cons, List.mem_cons, List.mem_singleton,
      List.not_mem_nil] at hnd
    have h01 : g0 ≠ g1 := fun hh => hnd.1 (Or.inl hh)
    have h23 : g2 ≠ g3 := fun hh => hnd.2.2.1 (Or.inl hh)
    unfold shuffled_final_draw at hd
    simp only [Option.bind_eq_some] at hd
    obtain ⟨fin, hfin, a, ha, b, hb, c, hc, d4, hd4, e, he, f, hf, g7, hg7, h8, hh8, hdd⟩ := hd
    cases hdd
    refine ⟨g0, g1, g2, g3, rfl, h01, h23, a, b, c, d4, e, f, g7, h8, ?_, ?_, ?_, ?_, ?_, ?_,
      ?_, ?_, rfl⟩ <;>
      simp only [juaraOf, runnerUpOf, hfin, Option.some_bind]
    · exact ha
    · exact hb
    · exact hc
    · exact hd4
    · exact he
    · exact hf
    · exact hg7
    · exact hh8

/-- Witness for C3: a concrete shuffle of the four two-team groups of
`store2x4` with the reversed label order. -/
theorem claim_C3_witness :
    ∃ g0 g1 g2 g3, (["D", "C", "B", "A"] : List String) = [g0, g1, g2, g3] ∧ g0 ≠ g1 ∧ g2 ≠ g3 ∧
      ∃ w0 u1 w2 u3 w1 u0 w3 u2,
        juaraOf store2x4 g0 = some w0 ∧ runnerUpOf store2x4 g1 = some u1 ∧
        juaraOf store2x4 g2 = some w2 ∧ runnerUpOf store2x4 g3 = some u3 ∧
        juaraOf store2x4 g1 = some w1 ∧ runnerUpOf store2x4 g0 = some u0 ∧
        juaraOf store2x4 g3 = some w3 ∧ runnerUpOf store2x4 g2 = some u2 ∧
        (["d1", "c2", "b1", "a2", "c1", "d2", "a1", "b2"] : List String) =
          [w0, u1, w2, u3, w1, u0, w3, u2] :=
  claim_C3.2 store2x4 ["D", "C", "B", "A"] ["d1", "c2", "b1", "a2", "c1", "d2", "a1", "b2"]
    (by decide) (by decide)

/-! ### From ready groups to the finalists list and the two dicts -/

theorem isReady_length {rows : List Row} (h : isReady rows = true) : 4 ≤ rows.length := by
  unfold isReady at h
  rw [Bool.and_eq_true] at h
  exact of_decide_eq_true h.1

theorem groupReady_spec {s : Store} {g : String} (h : groupReady s g = true) :
    ∃ r0 r1 tail, calculate_klasemen s g = some (r0 :: r1 :: tail) ∧
      r0.Tim ≠ r1.Tim ∧ r0.Tim ∈ get_grup_teams s g ∧ r1.Tim ∈ get_grup_teams s g := by
  unfold groupReady at h
  rcases hk : calculate_klasemen s g with _ | rows
  · rw [hk] at h
    exact Bool.noConfusion h
  · rw [hk] at h
    have h' : isReady rows = true := h
    have h4 : 4 ≤ rows.length := isReady_length h'
    rcases rows with _ | ⟨r0, _ | ⟨r1, tail⟩⟩
    · simp at h4
    · simp at h4
    · have hnd := klasemen_tim_nodup hk
      simp only [List.map_cons, List.nodup_cons, List.mem_cons] at hnd
      have hne : r0.Tim ≠ r1.Tim := fun hh => hnd.1 (Or.inl hh)
      have hperm := klasemen_tim_perm hk
      have hm0 : r0.Tim ∈ get_grup_teams s g :=
        mem_eraseDupsKeepFirst.mp (hperm.subset (by simp))
      have hm1 : r1.Tim ∈ get_grup_teams s g :=
        mem_eraseDupsKeepFirst.mp (hperm.subset (by simp))
      exact ⟨r0, r1, tail, rfl, hne, hm0, hm1⟩

theorem all_finalists_of_ready {s : Store}
    (hg : get_all_grups s = ["A", "B", "C", "D"])
    (hready : ∀ g ∈ (["A", "B", "C", "D"] : List String), groupReady s g = true) :
    ∃ wA rA wB rB wC rC wD rD : String,
      groupWinner s "A" = some wA ∧ groupRunnerUp s "A" = some rA ∧
      groupWinner s "B" = some wB ∧ groupRunnerUp s "B" = some rB ∧
      groupWinner s "C" = some wC ∧ groupRunnerUp s "C" = some rC ∧
      groupWinner s "D" = some wD ∧ groupRunnerUp s "D" = some rD ∧
      wA ≠ rA ∧ wB ≠ rB ∧ wC ≠ rC ∧ wD ≠ rD ∧
      wA ∈ get_grup_teams s "A" ∧ rA ∈ get_grup_teams s "A" ∧
      wB ∈ get_grup_teams s "B" ∧ rB ∈ get_grup_teams s "B" ∧
      wC ∈ get_grup_teams s "C" ∧ rC ∈ get_grup_teams s "C" ∧
      wD ∈ get_grup_teams s "D" ∧ rD ∈ get_grup_teams s "D" ∧
      all_finalists s = some [("A", wA), ("A", rA), ("B", wB), ("B", rB), ("C", wC), ("C", rC),
        ("D", wD), ("D", rD)] := by
  obtain ⟨a0, a1, ta, hkA, hneA, hmA0, hmA1⟩ := groupReady_spec (hready "A" (by decide))
  obtain ⟨b0, b1, tb, hkB, hneB, hmB0, hmB1⟩ := groupReady_spec (hready "B" (by decide))
  obtain ⟨c0, c1, tc, hkC, hneC, hmC0, hmC1⟩ := groupReady_spec (hready "C" (by decide))
  obtain ⟨d0, d1, td, hkD, hneD, hmD0, hmD1⟩ := groupReady_spec (hready "D" (by decide))
  refine ⟨a0.Tim, a1.Tim, b0.Tim, b1.Tim, c0.Tim, c1.Tim, d0.Tim, d1.Tim, ?_, ?_, ?_, ?_, ?_,
    ?_, ?_, ?_, hneA, hneB, hneC, hneD, hmA0, hmA1, hmB0, hmB1, hmC0, hmC1, hmD0, hmD1, ?_⟩
  · rw [groupWinner, hkA]
    rfl
  · rw [groupRunnerUp, hkA]
    rfl
  · rw [groupWinner, hkB]
    rfl
  · rw [groupRunnerUp, hkB]
    rfl
  · rw [groupWinner, hkC]
    rfl
  · rw [groupRunnerUp, hkC]
    rfl
  · rw [groupWinner, hkD]
    rfl
  · rw [groupRunnerUp, hkD]
    rfl
  · unfold all_finalists
    rw [hg]
    simp only [List.foldl_cons, List.foldl_nil, Option.some_bind, hkA, hkB, hkC, hkD]
    rfl

theorem dicts_of_finalists {wA rA wB rB wC rC wD rD : String}
    (h1 : wA ≠ rA) (h2 : wB ≠ rB) (h3 : wC ≠ rC) (h4 : wD ≠ rD) :
    juara_grup [("A", wA), ("A", rA), ("B", wB), ("B", rB), ("C", wC), ("C", rC),
        ("D", wD), ("D", rD)] = [("A", wA), ("B", wB), ("C", wC), ("D", wD)] ∧
    runner_up [("A", wA), ("A", rA), ("B", wB), ("B", rB), ("C", wC), ("C", rC),
        ("D", wD), ("D", rD)] = [("A", rA), ("B", rB), ("C", rC), ("D", rD)] := by
  have e1 : ¬ ((("A" : String), rA) = (("A" : String), wA)) := by
    simp [Prod.ext_iff]
    exact fun hh => h1 hh.symm
  have e2 : ¬ ((("B" : String), rB) = (("B" : String), wB)) := by
    simp [Prod.ext_iff]
    exact fun hh => h2 hh.symm
  have e3 : ¬ ((("C" : String), rC) = (("C" : String), wC)) := by
    simp [Prod.ext_iff]
    exact fun hh => h3 hh.symm
  have e4 : ¬ ((("D" : String), rD) = (("D" : String), wD)) := by
    simp [Prod.ext_iff]
    exact fun hh => h4 hh.symm
  have f1 : ¬ rA = wA := fun hh => h1 hh.symm
  have f2 : ¬ rB = wB := fun hh => h2 hh.symm
  have f3 : ¬ rC = wC := fun hh => h3 hh.symm
  have f4 : ¬ rD = wD := fun hh => h4 hh.symm
  constructor <;>
    simp [juara_grup, runner_up, idxOf, List.filter_cons, e1, e2, e3, e4, f1, f2, f3, f4,
      Prod.ext_iff]

/-- C4: with exactly the four groups `A`-`D`, all ready, the default draw
is exactly (A-winner, B-runner-up, C-winner, D-runner-up, B-winner,
A-runner-up, D-winner, C-runner-up), the winners and runners-up being the
rank-1 and rank-2 rows of each group's standings. -/
theorem claim_C4 (s : Store)
    (hg : get_all_grups s = ["A", "B", "C", "D"])
    (hready : ∀ g ∈ (["A", "B", "C", "D"] : List String), groupReady s g = true) :
    ∃ wA rA wB rB wC rC wD rD : String,
      groupWinner s "A" = some wA ∧ groupRunnerUp s "A" = some rA ∧
      groupWinner s "B" = some wB ∧ groupRunnerUp s "B" = some rB ∧
      groupWinner s "C" = some wC ∧ groupRunnerUp s "C" = some rC ∧
      groupWinner s "D" = some wD ∧ groupRunnerUp s "D" = some rD ∧
      final_draw s = some [wA, rB, wC, rD, wB, rA, wD, rC] := by
  obtain ⟨wA, rA, wB, rB, wC, rC, wD, rD, hwA, hrA, hwB, hrB, hwC, hrC, hwD, hrD,
    n1, n2, n3, n4, _, _, _, _, _, _, _, _, hfin⟩ := all_finalists_of_ready hg hready
  obtain ⟨hj, hr⟩ := dicts_of_finalists n1 n2 n3 n4
  refine ⟨wA, rA, wB, rB, wC, rC, wD, rD, hwA, hrA, hwB, hrB, hwC, hrC, hwD, hrD, ?_⟩
  unfold final_draw
  rw [hfin, Option.some_bind, hj, hr]
  rfl

/-- Witness for C4 at the concrete ready store `store4`. -/
theorem claim_C4_witness :
    ∃ wA rA wB rB wC rC wD rD : String,
      groupWinner store4 "A" = some wA ∧ groupRunnerUp store4 "A" = some rA ∧
      groupWinner store4 "B" = some wB ∧ groupRunnerUp store4 "B" = some rB ∧
      groupWinner store4 "C" = some wC ∧ groupRunnerUp store4 "C" = some rC ∧
      groupWinner store4 "D" = some wD ∧ groupRunnerUp store4 "D" = some rD ∧
      final_draw store4 = some [wA, rB, wC, rD, wB, rA, wD, rC] :=
  claim_C4 store4 (by decide) (by decide)

theorem teams_disjoint {s : Store} (hnames : (s.teams.map TeamRec.nama_tim).Nodup)
    {g g' a b : String} (ha : a ∈ get_grup_teams s g) (hb : b ∈ get_grup_teams s g')
    (hne : g ≠ g') : a ≠ b := by
  rintro rfl
  unfold get_grup_teams at ha hb
  obtain ⟨t, htf, hta⟩ := List.mem_map.mp ha
  obtain ⟨u, huf, hub⟩ := List.mem_map.mp hb
  rcases List.mem_filter.mp htf with ⟨htmem, htg⟩
  rcases List.mem_filter.mp huf with ⟨humem, hug⟩
  have htu : t = u :=
    List.inj_on_of_nodup_map hnames htmem humem (by rw [hta, hub])
  apply hne
  rw [← beq_iff_eq.mp htg, ← beq_iff_eq.mp hug, htu]

/-- C10: under distinct team names and four ready groups `A`-`D`, the
default draw equals the identity-order shuffled draw, and any draw built
from a permuted label list is a duplicate-free permutation of the eight
finalists (the four group winners and four runners-up) — each finalist
appears exactly once and nothing else appears. -/
theorem claim_C10 (s : Store)
    (hnames : (s.teams.map TeamRec.nama_tim).Nodup)
    (hg : get_all_grups s = ["A", "B", "C", "D"])
    (hready : ∀ g ∈ (["A", "B", "C", "D"] : List String), groupReady s g = true)
    (gs d : List String) (hperm : gs.Perm ["A", "B", "C", "D"])
    (hd : shuffled_final_draw s gs = some d) :
    (final_draw s = shuffled_final_draw s ["A", "B", "C", "D"]) ∧
    ∃ wA rA wB rB wC rC wD rD : String,
      groupWinner s "A" = some wA ∧ groupRunnerUp s "A" = some rA ∧
      groupWinner s "B" = some wB ∧ groupRunnerUp s "B" = some rB ∧
      groupWinner s "C" = some wC ∧ groupRunnerUp s "C" = some rC ∧
      groupWinner s "D" = some wD ∧ groupRunnerUp s "D" = some rD ∧
      d.Perm [wA, rA, wB, rB, wC, rC, wD, rD] ∧ d.Nodup := by
  refine ⟨rfl, ?_⟩
  obtain ⟨wA, rA, wB, rB, wC, rC, wD, rD, hwA, hrA, hwB, hrB, hwC, hrC, hwD, hrD,
    n1, n2, n3, n4, mA0, mA1, mB0, mB1, mC0, mC1, mD0, mD1, hfin⟩ :=
    all_finalists_of_ready hg hready
  obtain ⟨hj, hr⟩ := dicts_of_finalists n1 n2 n3 n4
  have hnodup8 : ([wA, rA, wB, rB, wC, rC, wD, rD] : List String).Nodup := by
    have q1 : wA ≠ wB := teams_disjoint hnames mA0 mB0 (by decide)
    have q2 : wA ≠ rB := teams_disjoint hnames mA0 mB1 (by decide)
    have q3 : wA ≠ wC := teams_disjoint hnames mA0 mC0 (by decide)
    have q4 : wA ≠ rC := teams_disjoint hnames mA0 mC1 (by decide)
    have q5 : wA ≠ wD := teams_disjoint hnames mA0 mD0 (by decide)
    have q6 : wA ≠ rD := teams_disjoint hnames mA0 mD1 (by decide)
    have q7 : rA ≠ wB := teams_disjoint hnames mA1 mB0 (by decide)
    have q8 : rA ≠ rB := teams_disjoint hnames mA1 mB1 (by decide)
    have q9 : rA ≠ wC := teams_disjoint hnames mA1 mC0 (by decide)
    have q10 : rA ≠ rC := teams_disjoint hnames mA1 mC1 (by decide)
    have q11 : rA ≠ wD := teams_disjoint hnames mA1 mD0 (by decide)
    have q12 : rA ≠ rD := teams_disjoint hnames mA1 mD1 (by decide)
    have q13 : wB ≠ wC := teams_disjoint hnames mB0 mC0 (by decide)
    have q14 : wB ≠ rC := teams_disjoint hnames mB0 mC1 (by decide)
    have q15 : wB ≠ wD := teams_disjoint hnames mB0 mD0 (by decide)
    have q16 : wB ≠ rD := teams_disjoint hnames mB0 mD1 (by decide)
    have q17 : rB ≠ wC := teams_disjoint hnames mB1 mC0 (by decide)
    have q18 : rB ≠ rC := teams_disjoint hnames mB1 mC1 (by decide)
    have q19 : rB ≠ wD := teams_disjoint hnames mB1 mD0 (by decide)
    have q20 : rB ≠ rD := teams_disjoint hnames mB1 mD1 (by decide)
    have q21 : wC ≠ wD := teams_disjoint hnames mC0 mD0 (by decide)
    have q22 : wC ≠ rD := teams_disjoint hnames mC0 mD1 (by decide)
    have q23 : rC ≠ wD := teams_disjoint hnames mC1 mD0 (by decide)
    have q24 : rC ≠ rD := teams_disjoint hnames mC1 mD1 (by decide)
    simp [List.nodup_cons, List.mem_cons, n1, n2, n3, n4, q1, q2, q3, q4, q5, q6, q7, q8, q9,
      q10, q11, q12, q13, q14, q15, q16, q17, q18, q19, q20, q21, q22, q23, q24]
  have hlen : gs.length = 4 := by rw [hperm.length_eq]; rfl
  rcases gs with _ | ⟨g0, _ | ⟨g1, _ | ⟨g2, _ | ⟨g3, _ | ⟨g4, rest⟩⟩⟩⟩⟩ <;>
      simp only [List.length_nil, List.length_cons] at hlen
  all_goals try omega
  unfold shuffled_final_draw at hd
  simp only [Option.bind_eq_some] at hd
  obtain ⟨fin, hfin', a, ha, b, hb, c, hc, d4, hd4, e, he, f, hf, g7, hg7, h8, hh8, hdd⟩ := hd
  rw [hfin] at hfin'
  cases hfin'
  rw [hj] at ha hc he hg7
  rw [hr] at hb hd4 hf hh8
  cases hdd
  have ea : a =
      (dictGet [("A", wA), ("B", wB), ("C", wC), ("D", wD)] g0).getD "" := by rw [ha]; rfl
  have eb : b =
      (dictGet [("A", rA), ("B", rB), ("C", rC), ("D", rD)] g1).getD "" := by rw [hb]; rfl
  have ec : c =
      (dictGet [("A", wA), ("B", wB), ("C", wC), ("D", wD)] g2).getD "" := by rw [hc]; rfl
  have ed : d4 =
      (dictGet [("A", rA), ("B", rB), ("C", rC), ("D", rD)] g3).getD "" := by rw [hd4]; rfl
  have ee : e =
      (dictGet [("A", wA), ("B", wB), ("C", wC), ("D", wD)] g1).getD "" := by rw [he]; rfl
  have ef : f =
      (dictGet [("A", rA), ("B", rB), ("C", rC), ("D", rD)] g0).getD "" := by rw [hf]; rfl
  have eg : g7 =
      (dictGet [("A", wA), ("B", wB), ("C", wC), ("D", wD)] g3).getD "" := by rw [hg7]; rfl
  have eh : h8 =
      (dictGet [("A", rA), ("B", rB), ("C", rC), ("D", rD)] g2).getD "" := by rw [hh8]; rfl
  subst ea eb ec ed ee ef eg eh
  have step2 : ([g0, g1, g2, g3].flatMap fun g =>
      [(dictGet [("A", wA), ("B", wB), ("C", wC), ("D", wD)] g).getD "",
        (dictGet [("A", rA), ("B", rB), ("C", rC), ("D", rD)] g).getD ""]).Perm
      ([wA, rA, wB, rB, wC, rC, wD, rD] : List String) :=
    hperm.flatMap_right _
  have step1 : (([(dictGet [("A", wA), ("B", wB), ("C", wC), ("D", wD)] g0).getD "",
      (dictGet [("A", rA), ("B", rB), ("C", rC), ("D", rD)] g1).getD "",
      (dictGet [("A", wA), ("B", wB), ("C", wC), ("D", wD)] g2).getD "",
      (dictGet [("A", rA), ("B", rB), ("C", rC), ("D", rD)] g3).getD "",
      (dictGet [("A", wA), ("B", wB), ("C", wC), ("D", wD)] g1).getD "",
      (dictGet [("A", rA), ("B", rB), ("C", rC), ("D", rD)] g0).getD "",
      (dictGet [("A", wA), ("B", wB), ("C", wC), ("D", wD)] g3).getD "",
      (dictGet [("A", rA), ("B", rB), ("C", rC), ("D", rD)] g2).getD ""] : List String)).Perm
      ([g0, g1, g2, g3].flatMap fun g =>
        [(dictGet [("A", wA), ("B", wB), ("C", wC), ("D", wD)] g).getD "",
          (dictGet [("A", rA), ("B", rB), ("C", rC), ("D", rD)] g).getD ""]) := by
    refine List.perm_iff_count.mpr fun x => ?_
    simp only [List.flatMap_cons, List.flatMap_nil, List.append_nil, List.cons_append,
      List.nil_append, List.count_cons, List.count_nil]
    omega
  have hperm8 := step1.trans step2
  exact ⟨wA, rA, wB, rB, wC, rC, wD, rD, hwA, hrA, hwB, hrB, hwC, hrC, hwD, hrD, hperm8,
    (hperm8.nodup_iff).mpr hnodup8⟩

/-- Witness for C10: a concrete shuffle of `store4` with label order
`["B", "A", "D", "C"]`. -/
theorem claim_C10_witness :
    (final_draw store4 = shuffled_final_draw store4 ["A", "B", "C", "D"]) ∧
    ∃ wA rA wB rB wC rC wD rD : String,
      groupWinner store4 "A" = some wA ∧ groupRunnerUp store4 "A" = some rA ∧
      groupWinner store4 "B" = some wB ∧ groupRunnerUp store4 "B" = some rB ∧
      groupWinner store4 "C" = some wC ∧ groupRunnerUp store4 "C" = some rC ∧
      groupWinner store4 "D" = some wD ∧ groupRunnerUp store4 "D" = some rD ∧
      (["e", "c", "m", "k", "a", "g", "i", "o"] : List String).Perm
        [wA, rA, wB, rB, wC, rC, wD, rD] ∧
      (["e", "c", "m", "k", "a", "g", "i", "o"] : List String).Nodup :=
  claim_C10 store4 (by decide) (by decide) (by decide) ["B", "A", "D", "C"]
    ["e", "c", "m", "k", "a", "g", "i", "o"] (by decide) (by decide)

